import Mathlib

/-!
Shallow embedding of the video-conversion backend (`src/index.ts`).

The embedded parts are the `POST /convert-video` batch handler, its per-file
unit of work (temp-file write, ffmpeg spawn, exit-code interpretation, output
stat, input cleanup in the `finally` block), and the `GET /download-video/:filename`
artifact delivery handler.  Effectful steps (disk writes, process spawn, stat)
are modelled by an explicit per-file environment `FileEnv` describing the
outcome of each step, and by an action trace `List FsAction` recording the
filesystem operations the handler performs.
-/

/-- File contents as a byte list (Node `Buffer`). -/
abbrev Bytes := List Nat

/-- Models JavaScript `String.prototype.toLowerCase` (per-character lowercase;
the formats involved are ASCII).  Defined by a character map so that it
reduces in the kernel. -/
def toLowerCase (s : String) : String := String.mk (s.data.map Char.toLower)

/-- Scan of a reversed character list for the extension part.  `acc` holds the
characters already passed (in forward order).  Stops at the last dot; a dot
that is the first character of the name (or of the last path segment) yields
no extension, matching Node `path.extname`. -/
def extScan : List Char → List Char → Option String
  | _, [] => none
  | acc, c :: rest =>
    if c = '/' then none
    else if c = '.' then
      match rest with
      | [] => none
      | d :: _ => if d = '/' then none else some (String.mk ('.' :: acc))
    else extScan (c :: acc) rest

/-- Models Node `path.extname`: the suffix of the last path segment from its
last dot (inclusive), or `""` when there is none or the dot starts the
segment. -/
def extname (s : String) : String := (extScan [] s.data.reverse).getD ""

/-- Splits a string on `/` (auxiliary, over characters, kernel-reducible). -/
def splitSlashAux : List Char → List Char → List String
  | acc, [] => [String.mk acc.reverse]
  | acc, c :: rest =>
    if c = '/' then String.mk acc.reverse :: splitSlashAux [] rest
    else splitSlashAux (c :: acc) rest

/-- Splits a string on `/`. -/
def splitSlash (s : String) : List String := splitSlashAux [] s.data

/-- Joins path segments with `/`. -/
def joinSlash : List String → String
  | [] => ""
  | [s] => s
  | s :: rest => s ++ "/" ++ joinSlash rest

/-- Normalises path segments, resolving `.`, `..` and empty segments against
an absolute root (a `..` above the root stays at the root, as in Node path
normalisation).  The first argument is the stack of segments already kept,
most recent first. -/
def normSegs : List String → List String → List String
  | stack, [] => stack.reverse
  | stack, seg :: rest =>
    if seg = "" ∨ seg = "." then normSegs stack rest
    else if seg = ".." then normSegs stack.tail rest
    else normSegs (seg :: stack) rest

/-- Models Node `path.join("/tmp", filename)` as used by the download handler:
concatenation followed by normalisation of `.`/`..`/empty segments. -/
def pathJoinTmp (filename : String) : String :=
  "/" ++ joinSlash (normSegs [] (splitSlash ("/tmp/" ++ filename)))

/-- Models `path.join("/tmp", name)` for the generated artifact names, which
contain no separators, so the join is plain concatenation. -/
def tmpPath (name : String) : String := "/tmp/" ++ name

/-- One uploaded file as delivered by multer memory storage
(`file.originalname`, `file.mimetype`, `file.buffer`, `file.size`). -/
structure UploadedFile where
  originalname : String
  mimetype : String
  buffer : Bytes
  size : Nat
deriving DecidableEq, Repr

/-- One entry of the `convertedFiles` array.  The TypeScript success object
has no `error` key and the failure object has no `size` key; both are
optional fields here. -/
structure ConversionResult where
  originalName : String
  newName : String
  mimeType : String
  downloadUrl : String
  size : Option Nat
  error : Option String
deriving DecidableEq, Repr

/-- Outcome of `fs.writeFile(inputFilePath, file.buffer)`. -/
inductive WriteOutcome where
  | ok
  | ioError (msg : String)
deriving DecidableEq, Repr

/-- Outcome of the spawned ffmpeg process: either the `error` event fired
(the process could not be started), or the `close` event fired with an exit
code and the accumulated stderr text. -/
inductive ProcOutcome where
  | spawnError (msg : String)
  | closed (code : Int) (stderr : String)
deriving DecidableEq, Repr

/-- Outcome of `fs.stat(outputFilePath)`. -/
inductive StatOutcome where
  | statOk (size : Nat)
  | statError (msg : String)
deriving DecidableEq, Repr

/-- The world one per-file unit of work runs in: the uuid it draws and the
outcome of each effectful step. -/
structure FileEnv where
  uniqueId : String
  writeRes : WriteOutcome
  procRes : ProcOutcome
  statRes : StatOutcome
deriving DecidableEq, Repr

/-- Filesystem- and process-level actions a handler performs, in order. -/
inductive FsAction where
  | fsWrite (path : String) (bytes : Bytes)
  | fsSpawn (args : List String)
  | fsStat (path : String)
  | fsAccess (path : String)
  | fsUnlink (path : String)
deriving DecidableEq, Repr

/-- Disk state: maps a path to the contents of the file there, if any. -/
abbrev Disk := String → Option Bytes

/-- Effect of an action trace on a disk: a write creates the file, an unlink
removes it, spawn/stat/access do not change the disk. -/
def applyFs (d : Disk) : List FsAction → Disk
  | [] => d
  | FsAction.fsWrite p b :: t => applyFs (fun q => if q = p then some b else d q) t
  | FsAction.fsUnlink p :: t => applyFs (fun q => if q = p then none else d q) t
  | FsAction.fsSpawn _ :: t => applyFs d t
  | FsAction.fsStat _ :: t => applyFs d t
  | FsAction.fsAccess _ :: t => applyFs d t

/-- Counts the unlinks of a given path in a trace. -/
def unlinkCount (p : String) (t : List FsAction) : Nat :=
  (t.filter (fun a => match a with | FsAction.fsUnlink q => q == p | _ => false)).length

/-- The `allowedVideoFormats` map of `src/index.ts`. -/
def allowedVideoFormats : List (String × String) :=
  [("mp4", "video/mp4"), ("webm", "video/webm")]

/-- Models `allowedVideoFormats.get k`. -/
def allowedVideoFormatsGet (k : String) : Option String :=
  (allowedVideoFormats.find? (fun p => p.fst == k)).map (fun p => p.snd)

/-- The generated input file name `` `${uniqueId}_input${path.extname(file.originalname)}` ``. -/
def inputFileName (id origName : String) : String := id ++ "_input" ++ extname origName

/-- The generated output file name `` `${uniqueId}_output.${targetFormat.toLowerCase()}` ``. -/
def outputFileName (id targetFormat : String) : String :=
  id ++ "_output." ++ toLowerCase targetFormat

/-- The job input path `path.join("/tmp", inputFileName)`. -/
def inputFilePath (id origName : String) : String := tmpPath (inputFileName id origName)

/-- The job output path `path.join("/tmp", outputFileName)`. -/
def outputFilePath (id targetFormat : String) : String :=
  tmpPath (outputFileName id targetFormat)

/-- The `ffmpegArgs` array of `src/index.ts`.  Note the codec selection
compares the raw `targetFormat` string (not its lowercased form) with
`"webm"`. -/
def ffmpegArgs (targetFormat inputPath outputPath : String) : List String :=
  ["-i", inputPath,
   "-c:v", if targetFormat = "webm" then "libvpx" else "libx264",
   "-preset", "veryfast",
   "-crf", "28",
   "-threads", "0",
   "-y", outputPath]

/-- The catch block message `` `Failed to convert: ${error.message || "Unknown error"}` ``
(a falsy, i.e. empty, message falls back to `"Unknown error"`). -/
def wrapCatch (m : String) : String :=
  "Failed to convert: " ++ (if m = "" then "Unknown error" else m)

/-- The failure-shape result object built in the per-file catch block. -/
def failureResult (file : UploadedFile) (m : String) : ConversionResult :=
  { originalName := file.originalname
    newName := file.originalname ++ ".error"
    mimeType := "application/octet-stream"
    downloadUrl := "#"
    size := none
    error := some (wrapCatch m) }

/-- The message of the error thrown inside the per-file `try` block for a
given environment, or `none` when every step succeeds.  Catalogue of the
throw sites of `src/index.ts`: the `fs.writeFile` rejection, the spawn
`error` event (`` `Failed to start FFmpeg: ${err.message}` ``), the nonzero
exit (`` `FFmpeg conversion failed: ${ffmpegErrorOutput || "Unknown FFmpeg error"}` ``)
and the `fs.stat` rejection. -/
def thrownMessage (env : FileEnv) : Option String :=
  match env.writeRes with
  | WriteOutcome.ioError m => some m
  | WriteOutcome.ok =>
    match env.procRes with
    | ProcOutcome.spawnError m => some ("Failed to start FFmpeg: " ++ m)
    | ProcOutcome.closed code stderr =>
      if code = 0 then
        match env.statRes with
        | StatOutcome.statError m => some m
        | StatOutcome.statOk _ => none
      else some ("FFmpeg conversion failed: " ++
        (if stderr = "" then "Unknown FFmpeg error" else stderr))

/-- One per-file unit of work of the `POST /convert-video` handler: write the
buffer to the input path, spawn ffmpeg with `ffmpegArgs`, await the process,
stat the output on exit code 0; any error is caught and turned into a
failure-shape result; the `finally` block unlinks the input path on every
path.  Returns the result object and the trace of filesystem actions. -/
def convertFile (targetFormat targetMimeType origin : String)
    (file : UploadedFile) (env : FileEnv) : ConversionResult × List FsAction :=
  let ip := inputFilePath env.uniqueId file.originalname
  let op := outputFilePath env.uniqueId targetFormat
  let body : ConversionResult × List FsAction :=
    match env.writeRes with
    | WriteOutcome.ioError m => (failureResult file m, [])
    | WriteOutcome.ok =>
      let args := ffmpegArgs targetFormat ip op
      match env.procRes with
      | ProcOutcome.spawnError m =>
        (failureResult file ("Failed to start FFmpeg: " ++ m),
         [FsAction.fsWrite ip file.buffer, FsAction.fsSpawn args])
      | ProcOutcome.closed code stderr =>
        if code = 0 then
          match env.statRes with
          | StatOutcome.statError m =>
            (failureResult file m,
             [FsAction.fsWrite ip file.buffer, FsAction.fsSpawn args, FsAction.fsStat op])
          | StatOutcome.statOk n =>
            ({ originalName := file.originalname
               newName := outputFileName env.uniqueId targetFormat
               mimeType := targetMimeType
               downloadUrl := origin ++ "/download-video/" ++ outputFileName env.uniqueId targetFormat
               size := some n
               error := none },
             [FsAction.fsWrite ip file.buffer, FsAction.fsSpawn args, FsAction.fsStat op])
        else
          (failureResult file ("FFmpeg conversion failed: " ++
             (if stderr = "" then "Unknown FFmpeg error" else stderr)),
           [FsAction.fsWrite ip file.buffer, FsAction.fsSpawn args])
  (body.fst, body.snd ++ [FsAction.fsUnlink ip])

/-- Response of the `POST /convert-video` handler.  `ok` is the HTTP 200 JSON
`{success, message, convertedFiles}`; `badRequest` is an HTTP 400 JSON
`{error}`; `uncaught` is an exception that escapes the handler (express
async-handler forwards it to the framework error handler, an HTTP 500). -/
inductive BatchResponse where
  | badRequest (error : String)
  | uncaught (message : String)
  | ok (success : Bool) (message : String) (convertedFiles : List ConversionResult)
deriving DecidableEq, Repr

/-- The 400 body for an empty upload. -/
def noFilesError : String := "No video files uploaded."

/-- The 400 body for a present but unsupported target format. -/
def invalidFormatError : String :=
  "Invalid or missing target video format. Supported formats: mp4, webm."

/-- The 200 message of the batch response. -/
def batchMessage : String :=
  "Video conversion completed. Download links point to temporary server files."

/-- Models `files.map(async (file) => ...)`: one `convertFile` per file, in
submission order, the file at position `k + i` running in the world
`envf (k + i)`. -/
def runBatch (targetFormat targetMimeType origin : String) (envf : Nat → FileEnv) :
    Nat → List UploadedFile → List (ConversionResult × List FsAction)
  | _, [] => []
  | k, f :: fs =>
    convertFile targetFormat targetMimeType origin f (envf k) ::
      runBatch targetFormat targetMimeType origin envf (k + 1) fs

/-- The `POST /convert-video` handler.  `format` is `req.body.format`
(`none` when the field is absent).  Mirrors the source order: the empty-files
check, then `allowedVideoFormats.get(targetFormat.toLowerCase())` — which,
when the field is absent, throws a `TypeError` *before* the
`if (!targetFormat || !targetMimeType)` check is reached, so a missing format
escapes as an uncaught exception instead of the 400 branch — then the 400
branch for a present unsupported format, then the per-file fan-out and the
200 response. -/
def convertVideoBatch (files : List UploadedFile) (format : Option String)
    (origin : String) (envf : Nat → FileEnv) : BatchResponse × List (List FsAction) :=
  if files.isEmpty then (BatchResponse.badRequest noFilesError, [])
  else
    match format with
    | none =>
      (BatchResponse.uncaught
        "TypeError: Cannot read properties of undefined (reading toLowerCase)", [])
    | some targetFormat =>
      match allowedVideoFormatsGet (toLowerCase targetFormat) with
      | none => (BatchResponse.badRequest invalidFormatError, [])
      | some targetMimeType =>
        let jobs := runBatch targetFormat targetMimeType origin envf 0 files
        (BatchResponse.ok true batchMessage (jobs.map Prod.fst), jobs.map Prod.snd)

/-- Response of the `GET /download-video/:filename` handler: a 404 with a
plain-text body, or a 200 stream with content type, content disposition and
the file bytes.  `uncaught` would be an exception escaping the handler; the
handler never produces it. -/
inductive DownloadResponse where
  | notFound (body : String)
  | served (mimeType disposition : String) (body : Bytes)
  | uncaught (message : String)
deriving DecidableEq, Repr

/-- The `GET /download-video/:filename` handler: joins the filename under
`/tmp`, checks accessibility (`fs.access`; failure is caught and answered
with a 404 and a plain-text message), maps the filename extension to a
content type, sets the attachment disposition and streams the file. -/
def downloadVideo (disk : Disk) (filename : String) : DownloadResponse × List FsAction :=
  let filePath := pathJoinTmp filename
  match disk filePath with
  | none =>
    (DownloadResponse.notFound "File not found or not accessible.",
     [FsAction.fsAccess filePath])
  | some bytes =>
    let ext := toLowerCase (extname filename)
    let mime :=
      if ext = ".mp4" then "video/mp4"
      else if ext = ".webm" then "video/webm"
      else "application/octet-stream"
    (DownloadResponse.served mime ("attachment; filename=\"" ++ filename ++ "\"") bytes,
     [FsAction.fsAccess filePath])

/-- Tags each result with its slot index, starting at `k`. -/
def indexedFrom : Nat → List ConversionResult → List ((_ : Nat) × ConversionResult)
  | _, [] => []
  | k, r :: rs => Sigma.mk k r :: indexedFrom (k + 1) rs

/-- Models how `Promise.all` assembles its result array: each unit of work
delivers `(slot index, value)` in whatever order it completes (`completed`),
and the array is read off slot by slot. -/
def promiseAllGather (n : Nat) (completed : List ((_ : Nat) × ConversionResult)) :
    List (Option ConversionResult) :=
  (List.range n).map (fun i => completed.dlookup i)

example : toLowerCase "WEBM" = "webm" := by decide
example : extname "video.mov" = ".mov" := by decide
example : extname "archive" = "" := by decide
example : pathJoinTmp "abc_output.mp4" = "/tmp/abc_output.mp4" := by decide
example : pathJoinTmp "../etc/passwd" = "/etc/passwd" := by decide
example : allowedVideoFormatsGet "webm" = some "video/webm" := by decide
example : allowedVideoFormatsGet "exe" = none := by decide

/-! ### Sample inputs used by the concrete witnesses -/

/-- A sample uploaded file. -/
def sampleFile : UploadedFile :=
  { originalname := "clip.avi", mimetype := "video/x-msvideo", buffer := [7, 7], size := 2 }

/-- A second sample uploaded file. -/
def sampleFile2 : UploadedFile :=
  { originalname := "movie.mkv", mimetype := "video/x-matroska", buffer := [1], size := 1 }

/-- A per-file world where every step succeeds. -/
def sampleEnvOk : FileEnv :=
  { uniqueId := "id0", writeRes := WriteOutcome.ok,
    procRes := ProcOutcome.closed 0 "", statRes := StatOutcome.statOk 5 }

/-- A per-file world where the encoder exits nonzero. -/
def sampleEnvEncodeFail : FileEnv :=
  { uniqueId := "id1", writeRes := WriteOutcome.ok,
    procRes := ProcOutcome.closed 1 "boom", statRes := StatOutcome.statOk 5 }

/-- A per-file world where the encoder exits 0 but the output stat fails. -/
def sampleEnvStatFail : FileEnv :=
  { uniqueId := "id2", writeRes := WriteOutcome.ok,
    procRes := ProcOutcome.closed 0 "", statRes := StatOutcome.statError "ENOENT" }

/-- A world assigning distinct uuids per slot index. -/
def sampleEnvf : Nat → FileEnv
  | 0 => sampleEnvOk
  | 1 => sampleEnvEncodeFail
  | _ => sampleEnvStatFail

/-- A sample disk holding exactly one produced artifact. -/
def sampleDisk : Disk :=
  fun p => if p = "/tmp/id0_output.mp4" then some [9, 9, 9] else none

/-! ### Helper lemmas -/

/-- String append cancels on the left. -/
theorem string_append_cancel_left {a b c : String} (h : a ++ b = a ++ c) : b = c := by
  have h2 := congrArg String.data h
  simp only [String.data_append] at h2
  exact String.ext (List.append_cancel_left h2)

/-- The generated input and output names of one job never coincide. -/
theorem inputFileName_ne_outputFileName (id a tf : String) :
    inputFileName id a ≠ outputFileName id tf := by
  intro h
  unfold inputFileName outputFileName at h
  rw [String.append_assoc, String.append_assoc] at h
  have h2 := congrArg String.data (string_append_cancel_left h)
  simp only [String.data_append] at h2
  simp at h2

/-- The input and output paths of one job never coincide. -/
theorem inputFilePath_ne_outputFilePath (id a tf : String) :
    inputFilePath id a ≠ outputFilePath id tf := by
  intro h
  unfold inputFilePath outputFilePath tmpPath at h
  exact inputFileName_ne_outputFileName id a tf (string_append_cancel_left h)

/-- The result always carries the original upload name. -/
theorem convertFile_fst_originalName (tf mime o : String) (f : UploadedFile) (e : FileEnv) :
    ((convertFile tf mime o f e).fst).originalName = f.originalname := by
  rcases e with ⟨id, w, p, s⟩
  cases w with
  | ioError m => simp [convertFile, failureResult]
  | ok =>
    cases p with
    | spawnError m => simp [convertFile, failureResult]
    | closed code stderr =>
      by_cases hc : code = 0
      · cases s <;> simp [convertFile, failureResult, hc]
      · simp [convertFile, failureResult, hc]

/-- The error field of the result is exactly the caught message (wrapped by
the catch block), and is absent when every step succeeds. -/
theorem convertFile_fst_error (tf mime o : String) (f : UploadedFile) (e : FileEnv) :
    ((convertFile tf mime o f e).fst).error = (thrownMessage e).map wrapCatch := by
  rcases e with ⟨id, w, p, s⟩
  cases w with
  | ioError m => simp [convertFile, failureResult, thrownMessage]
  | ok =>
    cases p with
    | spawnError m => simp [convertFile, failureResult, thrownMessage, wrapCatch]
    | closed code stderr =>
      by_cases hc : code = 0
      · cases s <;> simp [convertFile, failureResult, thrownMessage, hc]
      · simp [convertFile, failureResult, thrownMessage, wrapCatch, hc]

/-- C2: on every exit path of the per-file unit of work — success, disk-write
failure, spawn failure, encode failure, stat failure — the job's input path
is unlinked exactly once (by the `finally` block), every unlink in the trace
targets the input path (in particular the output path is never unlinked,
input and output paths being distinct), and after the trace runs the input
artifact does not exist on disk, whatever the disk held before. -/
theorem convertFile_input_cleanup (tf mime o : String) (f : UploadedFile) (e : FileEnv) :
    unlinkCount (inputFilePath e.uniqueId f.originalname) (convertFile tf mime o f e).snd = 1
    ∧ (∀ p, FsAction.fsUnlink p ∈ (convertFile tf mime o f e).snd →
        p = inputFilePath e.uniqueId f.originalname)
    ∧ (∀ d : Disk, applyFs d (convertFile tf mime o f e).snd
        (inputFilePath e.uniqueId f.originalname) = none)
    ∧ inputFilePath e.uniqueId f.originalname ≠ outputFilePath e.uniqueId tf := by
  refine ⟨?_, ?_, ?_, inputFilePath_ne_outputFilePath _ _ _⟩ <;>
  · rcases e with ⟨id, w, p, s⟩
    cases w with
    | ioError m => simp [convertFile, unlinkCount, applyFs]
    | ok =>
      cases p with
      | spawnError m => simp [convertFile, unlinkCount, applyFs]
      | closed code stderr =>
        by_cases hc : code = 0
        · cases s <;> simp [convertFile, unlinkCount, applyFs, hc]
        · simp [convertFile, unlinkCount, applyFs, hc]

/-- C5 (counterexample): the format string `"WEBM"` is accepted — its
lowercase form is in the allow-list, the output artifact is named `.webm`
and reported as `video/webm` — yet the codec argument constructed for it is
`libx264`, not `libvpx`, because the codec selection compares the raw format
string case-sensitively. -/
theorem webm_case_codec_counterexample :
    allowedVideoFormatsGet (toLowerCase "WEBM") = some "video/webm"
    ∧ (convertFile "WEBM" "video/webm" "http://h" sampleFile sampleEnvOk).snd
      = [FsAction.fsWrite "/tmp/id0_input.avi" [7, 7],
         FsAction.fsSpawn ["-i", "/tmp/id0_input.avi", "-c:v", "libx264",
           "-preset", "veryfast", "-crf", "28", "-threads", "0", "-y",
           "/tmp/id0_output.webm"],
         FsAction.fsStat "/tmp/id0_output.webm",
         FsAction.fsUnlink "/tmp/id0_input.avi"]
    ∧ ("libx264" : String) ≠ "libvpx" := by
  refine ⟨by decide, by decide, by decide⟩

/-- Every spawn in a per-file trace carries exactly the `ffmpegArgs`
argument list built from the job's own paths and the raw format string. -/
theorem convertFile_spawn_args (tf mime o : String) (f : UploadedFile) (e : FileEnv)
    (args : List String)
    (hmem : FsAction.fsSpawn args ∈ (convertFile tf mime o f e).snd) :
    args = ["-i", inputFilePath e.uniqueId f.originalname,
            "-c:v", if tf = "webm" then "libvpx" else "libx264",
            "-preset", "veryfast", "-crf", "28", "-threads", "0", "-y",
            outputFilePath e.uniqueId tf] := by
  rcases e with ⟨id, w, p, s⟩
  cases w with
  | ioError m => simp [convertFile] at hmem
  | ok =>
    cases p with
    | spawnError m =>
      simp [convertFile, ffmpegArgs] at hmem
      exact hmem
    | closed code stderr =>
      by_cases hc : code = 0
      · cases s <;> · simp [convertFile, ffmpegArgs, hc] at hmem
                      exact hmem
      · simp [convertFile, ffmpegArgs, hc] at hmem
        exact hmem

/-- C5 (amended): every spawn performed by an accepted per-file conversion
carries exactly the argument list: input path after `-i`, then `-c:v` with
`libvpx` when the submitted format string is exactly `"webm"` (case-sensitive)
and `libx264` for every other accepted string (including other-cased
spellings of webm), `-preset veryfast`, `-crf 28`, `-threads 0`, `-y`, and
the output path last. -/
theorem ffmpeg_args_construction (tf mime o : String) (f : UploadedFile) (e : FileEnv)
    (args : List String)
    (hfmt : allowedVideoFormatsGet (toLowerCase tf) = some mime)
    (hmem : FsAction.fsSpawn args ∈ (convertFile tf mime o f e).snd) :
    args = ["-i", inputFilePath e.uniqueId f.originalname,
            "-c:v", if tf = "webm" then "libvpx" else "libx264",
            "-preset", "veryfast", "-crf", "28", "-threads", "0", "-y",
            outputFilePath e.uniqueId tf] :=
  convertFile_spawn_args tf mime o f e args hmem

/-- Witness for `ffmpeg_args_construction` at a concrete accepted conversion. -/
theorem ffmpeg_args_construction_witness :
    (["-i", "/tmp/id0_input.avi", "-c:v", "libx264", "-preset", "veryfast",
      "-crf", "28", "-threads", "0", "-y", "/tmp/id0_output.mp4"] : List String)
      = ["-i", inputFilePath sampleEnvOk.uniqueId sampleFile.originalname,
         "-c:v", if "mp4" = "webm" then "libvpx" else "libx264",
         "-preset", "veryfast", "-crf", "28", "-threads", "0", "-y",
         outputFilePath sampleEnvOk.uniqueId "mp4"] :=
  ffmpeg_args_construction "mp4" "video/mp4" "http://h" sampleFile sampleEnvOk
    ["-i", "/tmp/id0_input.avi", "-c:v", "libx264", "-preset", "veryfast",
     "-crf", "28", "-threads", "0", "-y", "/tmp/id0_output.mp4"]
    (by decide) (by decide)

/-- C7: when the write succeeded and the encoder process closed with exit
code 0, the output file is stat'ed; if that stat fails the job is reported as
a failed conversion (failure shape, no size, no download reference) despite
the zero exit code; and in general a result without an error field exists
only when the stat succeeded, so the exit code alone never yields a success
report. -/
theorem exit_zero_requires_stat (tf mime o : String) (f : UploadedFile) (e : FileEnv)
    (stderr : String)
    (hw : e.writeRes = WriteOutcome.ok) (hp : e.procRes = ProcOutcome.closed 0 stderr) :
    FsAction.fsStat (outputFilePath e.uniqueId tf) ∈ (convertFile tf mime o f e).snd
    ∧ (∀ m, e.statRes = StatOutcome.statError m →
        ((convertFile tf mime o f e).fst).error = some (wrapCatch m)
        ∧ ((convertFile tf mime o f e).fst).size = none
        ∧ ((convertFile tf mime o f e).fst).downloadUrl = "#")
    ∧ (((convertFile tf mime o f e).fst).error = none →
        ∃ n, e.statRes = StatOutcome.statOk n
          ∧ ((convertFile tf mime o f e).fst).size = some n) := by
  rcases e with ⟨id, w, p, s⟩
  simp only at hw hp
  subst hw
  subst hp
  cases s with
  | statError m => simp [convertFile, failureResult]
  | statOk n => simp [convertFile, failureResult]

/-- Witness for `exit_zero_requires_stat`: a concrete job whose encoder exits
0 but whose output stat fails is reported as a failure. -/
theorem exit_zero_requires_stat_witness :
    ((convertFile "mp4" "video/mp4" "http://h" sampleFile sampleEnvStatFail).fst).error
      = some (wrapCatch "ENOENT") :=
  ((exit_zero_requires_stat "mp4" "video/mp4" "http://h" sampleFile sampleEnvStatFail
    "" (by decide) (by decide)).2.1 "ENOENT" (by decide)).1

/-! ### Batch-level lemmas -/

/-- The fan-out produces one job per file. -/
theorem runBatch_length (tf mime o : String) (envf : Nat → FileEnv) :
    ∀ (files : List UploadedFile) (k : Nat),
      (runBatch tf mime o envf k files).length = files.length := by
  intro files
  induction files with
  | nil => intro k; simp [runBatch]
  | cons f fs ih => intro k; simp [runBatch, ih]

/-- The job at slot `i` converts the file at slot `i` in the world of slot
`k + i`. -/
theorem runBatch_getElem? (tf mime o : String) (envf : Nat → FileEnv) :
    ∀ (files : List UploadedFile) (k i : Nat),
      (runBatch tf mime o envf k files)[i]?
        = (files[i]?).map (fun f => convertFile tf mime o f (envf (k + i))) := by
  intro files
  induction files with
  | nil => intro k i; simp [runBatch]
  | cons f fs ih =>
    intro k i
    cases i with
    | zero => simp [runBatch]
    | succ j =>
      simp only [runBatch, List.getElem?_cons_succ]
      rw [ih (k + 1) j]
      have harith : k + 1 + j = k + (j + 1) := by omega
      rw [harith]

/-- Every slot key of `indexedFrom k l` is at least `k`. -/
theorem indexedFrom_keys_ge :
    ∀ (l : List ConversionResult) (k a : Nat), a ∈ (indexedFrom k l).keys → k ≤ a := by
  intro l
  induction l with
  | nil => intro k a h; simp [indexedFrom, List.keys] at h
  | cons r rs ih =>
    intro k a h
    simp only [indexedFrom, List.keys_cons, List.mem_cons] at h
    rcases h with h | h
    · omega
    · have := ih (k + 1) a h
      omega

/-- The slot keys of `indexedFrom k l` are pairwise distinct. -/
theorem indexedFrom_nodupKeys :
    ∀ (l : List ConversionResult) (k : Nat), (indexedFrom k l).NodupKeys := by
  intro l
  induction l with
  | nil => intro k; exact List.nodupKeys_nil
  | cons r rs ih =>
    intro k
    refine List.nodupKeys_cons.mpr ⟨?_, ih (k + 1)⟩
    intro hmem
    have := indexedFrom_keys_ge rs (k + 1) k hmem
    omega

/-- Looking up slot `k + i` in `indexedFrom k l` finds the `i`-th result. -/
theorem indexedFrom_dlookup (l : List ConversionResult) :
    ∀ (k i : Nat), (indexedFrom k l).dlookup (k + i) = l[i]? := by
  induction l with
  | nil => intro k i; simp [indexedFrom]
  | cons r rs ih =>
    intro k i
    cases i with
    | zero => simp [indexedFrom, List.dlookup_cons_eq (indexedFrom (k + 1) rs) k r]
    | succ j =>
      have hne : k + (j + 1) ≠ k := by omega
      rw [indexedFrom, List.dlookup_cons_ne _ _ hne, List.getElem?_cons_succ]
      have harith : k + (j + 1) = k + 1 + j := by omega
      rw [harith, ih (k + 1) j]

/-- A valid batch takes the 200 branch, with one job per file. -/
theorem convertVideoBatch_ok (files : List UploadedFile) (tf mime origin : String)
    (envf : Nat → FileEnv)
    (hne : files ≠ [])
    (hfmt : allowedVideoFormatsGet (toLowerCase tf) = some mime) :
    convertVideoBatch files (some tf) origin envf
      = (BatchResponse.ok true batchMessage
          ((runBatch tf mime origin envf 0 files).map Prod.fst),
         (runBatch tf mime origin envf 0 files).map Prod.snd) := by
  have hie : files.isEmpty = false := by
    cases files with
    | nil => exact absurd rfl hne
    | cons f fs => rfl
  simp only [convertVideoBatch, hie, Bool.false_eq_true, if_false, hfmt]

/-- C4 (code bug): a batch with one valid file and no format field escapes as
an uncaught `TypeError` (the source calls `targetFormat.toLowerCase()` before
the `!targetFormat` check), with no per-file work started — not the 400
`badRequest` that the validation branch produces for a present unsupported
format, whose body lists the supported formats. -/
theorem missing_format_uncaught_bug :
    convertVideoBatch [sampleFile] none "http://h" sampleEnvf
      = (BatchResponse.uncaught
          "TypeError: Cannot read properties of undefined (reading toLowerCase)", [])
    ∧ convertVideoBatch [sampleFile] (some "exe") "http://h" sampleEnvf
      = (BatchResponse.badRequest invalidFormatError, [])
    ∧ ∀ body, BatchResponse.uncaught
        "TypeError: Cannot read properties of undefined (reading toLowerCase)"
        ≠ BatchResponse.badRequest body := by
  refine ⟨by decide, by decide, ?_⟩
  intro body h
  cases h

/-- C1: for every valid batch (nonempty file list, allowed target format) the
handler answers 200 with the job results in original submission order: the
result list has exactly one entry per input file, the entry at slot `i` is
the conversion of the upload at slot `i` (witnessed by its `originalName`),
and reassembling from any completion order of the concurrent units of work —
any permutation of the slot-indexed results — yields the same array, in
submission order. -/
theorem batch_preserves_order_and_length
    (files : List UploadedFile) (tf mime origin : String) (envf : Nat → FileEnv)
    (completed : List ((_ : Nat) × ConversionResult))
    (hne : files ≠ [])
    (hfmt : allowedVideoFormatsGet (toLowerCase tf) = some mime)
    (hperm : completed.Perm
      (indexedFrom 0 ((runBatch tf mime origin envf 0 files).map Prod.fst))) :
    (convertVideoBatch files (some tf) origin envf).fst
      = BatchResponse.ok true batchMessage
          ((runBatch tf mime origin envf 0 files).map Prod.fst)
    ∧ ((runBatch tf mime origin envf 0 files).map Prod.fst).length = files.length
    ∧ promiseAllGather files.length completed
      = ((runBatch tf mime origin envf 0 files).map Prod.fst).map some
    ∧ ∀ i : Nat,
        (((runBatch tf mime origin envf 0 files).map Prod.fst)[i]?).map
            ConversionResult.originalName
          = (files[i]?).map UploadedFile.originalname := by
  have hlen : ((runBatch tf mime origin envf 0 files).map Prod.fst).length = files.length := by
    rw [List.length_map, runBatch_length]
  refine ⟨by rw [convertVideoBatch_ok files tf mime origin envf hne hfmt], hlen, ?_, ?_⟩
  · have hnd2 : (indexedFrom 0 ((runBatch tf mime origin envf 0 files).map Prod.fst)).NodupKeys :=
      indexedFrom_nodupKeys _ 0
    have hnd1 : completed.NodupKeys := (List.perm_nodupKeys hperm).mpr hnd2
    apply List.ext_getElem
    · simp [promiseAllGather, runBatch_length]
    · intro i h1 h2
      have hi : i < ((runBatch tf mime origin envf 0 files).map Prod.fst).length := by
        simpa using h2
      simp only [promiseAllGather]
      rw [List.getElem_map, List.getElem_range]
      rw [List.perm_dlookup i hnd1 hnd2 hperm]
      have e2 := indexedFrom_dlookup ((runBatch tf mime origin envf 0 files).map Prod.fst) 0 i
      rw [Nat.zero_add] at e2
      rw [e2, List.getElem?_eq_getElem hi]
      simp [List.getElem_map]
  · intro i
    rw [List.getElem?_map, runBatch_getElem? tf mime origin envf files 0 i]
    cases hfi : files[i]? with
    | none => simp
    | some fi => simp [convertFile_fst_originalName]

/-- Witness for `batch_preserves_order_and_length`: a concrete 2-file batch
whose units complete in reverse order still gathers in submission order. -/
theorem batch_preserves_order_witness :
    promiseAllGather 2
      ((indexedFrom 0 ((runBatch "mp4" "video/mp4" "http://h" sampleEnvf 0
          [sampleFile, sampleFile2]).map Prod.fst)).reverse)
      = ((runBatch "mp4" "video/mp4" "http://h" sampleEnvf 0
          [sampleFile, sampleFile2]).map Prod.fst).map some :=
  (batch_preserves_order_and_length [sampleFile, sampleFile2] "mp4" "video/mp4" "http://h"
    sampleEnvf
    ((indexedFrom 0 ((runBatch "mp4" "video/mp4" "http://h" sampleEnvf 0
        [sampleFile, sampleFile2]).map Prod.fst)).reverse)
    (by decide) (by decide) (List.reverse_perm _)).2.2.1

/-- C3: once the target format passed validation, the batch response is
always the 200 JSON with `success: true` and one entry per file, and each
per-file error — disk write, spawn, nonzero exit, output stat — is caught at
the file boundary and recorded as that entry's error field carrying the
underlying message; no per-file error escapes the batch. -/
theorem batch_errors_contained
    (files : List UploadedFile) (tf mime origin : String) (envf : Nat → FileEnv)
    (hne : files ≠ [])
    (hfmt : allowedVideoFormatsGet (toLowerCase tf) = some mime) :
    (convertVideoBatch files (some tf) origin envf).fst
      = BatchResponse.ok true batchMessage
          ((runBatch tf mime origin envf 0 files).map Prod.fst)
    ∧ ((runBatch tf mime origin envf 0 files).map Prod.fst).length = files.length
    ∧ ∀ i : Nat, (hi : i < files.length) →
        (((runBatch tf mime origin envf 0 files).map Prod.fst)[i]?)
          = some ((convertFile tf mime origin files[i] (envf i)).fst)
        ∧ ((convertFile tf mime origin files[i] (envf i)).fst).error
          = (thrownMessage (envf i)).map wrapCatch := by
  refine ⟨by rw [convertVideoBatch_ok files tf mime origin envf hne hfmt],
    by rw [List.length_map, runBatch_length], ?_⟩
  intro i hi
  constructor
  · rw [List.getElem?_map, runBatch_getElem? tf mime origin envf files 0 i,
      List.getElem?_eq_getElem hi]
    simp
  · exact convertFile_fst_error tf mime origin files[i] (envf i)

/-- Witness for `batch_errors_contained`: a concrete batch whose second file
fails to encode still answers 200, with the failure recorded in that entry. -/
theorem batch_errors_contained_witness :
    ((convertFile "mp4" "video/mp4" "http://h"
        ([sampleFile, sampleFile2])[1] (sampleEnvf 1)).fst).error
      = (thrownMessage (sampleEnvf 1)).map wrapCatch :=
  ((batch_errors_contained [sampleFile, sampleFile2] "mp4" "video/mp4" "http://h"
    sampleEnvf (by decide) (by decide)).2.2 1 (by decide)).2

/-- Every per-file result populates exactly one of the two shapes: the
success shape (size from the stat, no error, the target MIME type) or the
failure shape (no size, an error, generic MIME type, `"#"` download link). -/
theorem convertFile_shape (tf mime o : String) (f : UploadedFile) (e : FileEnv) :
    (∃ n, e.statRes = StatOutcome.statOk n
      ∧ ((convertFile tf mime o f e).fst).size = some n
      ∧ ((convertFile tf mime o f e).fst).error = none
      ∧ ((convertFile tf mime o f e).fst).mimeType = mime)
    ∨ (((convertFile tf mime o f e).fst).size = none
      ∧ (∃ em, ((convertFile tf mime o f e).fst).error = some em)
      ∧ ((convertFile tf mime o f e).fst).mimeType = "application/octet-stream"
      ∧ ((convertFile tf mime o f e).fst).downloadUrl = "#") := by
  rcases e with ⟨id, w, p, s⟩
  cases w with
  | ioError m => right; simp [convertFile, failureResult]
  | ok =>
    cases p with
    | spawnError m => right; simp [convertFile, failureResult]
    | closed code stderr =>
      by_cases hc : code = 0
      · cases s with
        | statOk n => left; exact ⟨n, rfl, by simp [convertFile, hc],
            by simp [convertFile, hc], by simp [convertFile, hc]⟩
        | statError m => right; simp [convertFile, failureResult, hc]
      · right; simp [convertFile, failureResult, hc]

/-- C6: in a validated batch, every entry of the result array populates
exactly one of the two shapes — on success `size` (the byte size from the
stat) is present, `error` absent and `mimeType` is the target format's MIME
type; on failure `size` is absent and `error` present, with
`mimeType = "application/octet-stream"` and `downloadUrl = "#"`. -/
theorem result_shape_exclusive
    (files : List UploadedFile) (tf mime origin : String) (envf : Nat → FileEnv)
    (hne : files ≠ [])
    (hfmt : allowedVideoFormatsGet (toLowerCase tf) = some mime) :
    (convertVideoBatch files (some tf) origin envf).fst
      = BatchResponse.ok true batchMessage
          ((runBatch tf mime origin envf 0 files).map Prod.fst)
    ∧ ∀ i : Nat, (hi : i < files.length) →
        (((runBatch tf mime origin envf 0 files).map Prod.fst)[i]?)
          = some ((convertFile tf mime origin files[i] (envf i)).fst)
        ∧ ((∃ n, (envf i).statRes = StatOutcome.statOk n
            ∧ ((convertFile tf mime origin files[i] (envf i)).fst).size = some n
            ∧ ((convertFile tf mime origin files[i] (envf i)).fst).error = none
            ∧ ((convertFile tf mime origin files[i] (envf i)).fst).mimeType = mime)
          ∨ (((convertFile tf mime origin files[i] (envf i)).fst).size = none
            ∧ (∃ em, ((convertFile tf mime origin files[i] (envf i)).fst).error = some em)
            ∧ ((convertFile tf mime origin files[i] (envf i)).fst).mimeType
                = "application/octet-stream"
            ∧ ((convertFile tf mime origin files[i] (envf i)).fst).downloadUrl = "#")) := by
  refine ⟨by rw [convertVideoBatch_ok files tf mime origin envf hne hfmt], ?_⟩
  intro i hi
  constructor
  · rw [List.getElem?_map, runBatch_getElem? tf mime origin envf files 0 i,
      List.getElem?_eq_getElem hi]
    simp
  · exact convertFile_shape tf mime origin files[i] (envf i)

/-- Witness for `result_shape_exclusive`: in a concrete batch the first
(successful) entry carries a size and no error. -/
theorem result_shape_exclusive_witness :
    (∃ n, (sampleEnvf 0).statRes = StatOutcome.statOk n
      ∧ ((convertFile "mp4" "video/mp4" "http://h"
          ([sampleFile, sampleFile2])[0] (sampleEnvf 0)).fst).size = some n
      ∧ ((convertFile "mp4" "video/mp4" "http://h"
          ([sampleFile, sampleFile2])[0] (sampleEnvf 0)).fst).error = none
      ∧ ((convertFile "mp4" "video/mp4" "http://h"
          ([sampleFile, sampleFile2])[0] (sampleEnvf 0)).fst).mimeType = "video/mp4")
    ∨ (((convertFile "mp4" "video/mp4" "http://h"
          ([sampleFile, sampleFile2])[0] (sampleEnvf 0)).fst).size = none
      ∧ (∃ em, ((convertFile "mp4" "video/mp4" "http://h"
          ([sampleFile, sampleFile2])[0] (sampleEnvf 0)).fst).error = some em)
      ∧ ((convertFile "mp4" "video/mp4" "http://h"
          ([sampleFile, sampleFile2])[0] (sampleEnvf 0)).fst).mimeType
          = "application/octet-stream"
      ∧ ((convertFile "mp4" "video/mp4" "http://h"
          ([sampleFile, sampleFile2])[0] (sampleEnvf 0)).fst).downloadUrl = "#") :=
  ((result_shape_exclusive [sampleFile, sampleFile2] "mp4" "video/mp4" "http://h"
    sampleEnvf (by decide) (by decide)).2 0 (by decide)).2

/-- The generated output name splits as a stem, a dot and the lowercased
format string. -/
theorem outputFileName_decomp (id tf : String) :
    outputFileName id tf = (id ++ "_output") ++ "." ++ toLowerCase tf := by
  unfold outputFileName
  have h : ("_output" : String) ++ "." = "_output." := by decide
  rw [← h, ← String.append_assoc id "_output" "."]

/-- The generated output path splits as a stem, a dot and the lowercased
format string. -/
theorem outputFilePath_decomp (id tf : String) :
    outputFilePath id tf = ("/tmp/" ++ id ++ "_output") ++ "." ++ toLowerCase tf := by
  unfold outputFilePath tmpPath
  rw [outputFileName_decomp]
  simp [String.append_assoc]

/-- Every job in the fan-out is the conversion of some uploaded file in some
per-slot world. -/
theorem runBatch_mem (tf mime o : String) (envf : Nat → FileEnv) :
    ∀ (files : List UploadedFile) (k : Nat) (x : ConversionResult × List FsAction),
      x ∈ runBatch tf mime o envf k files →
      ∃ f e, f ∈ files ∧ x = convertFile tf mime o f e := by
  intro files
  induction files with
  | nil => intro k x h; simp [runBatch] at h
  | cons f fs ih =>
    intro k x h
    simp only [runBatch, List.mem_cons] at h
    rcases h with h | h
    · exact ⟨f, envf k, List.mem_cons_self f fs, h⟩
    · obtain ⟨f2, e2, hf2, hx⟩ := ih (k + 1) x h
      exact ⟨f2, e2, List.mem_cons_of_mem f hf2, hx⟩

/-- A result without an error field reports the target MIME type and is
named by the job's generated output name. -/
theorem convertFile_success_fields (tf mime o : String) (f : UploadedFile) (e : FileEnv)
    (h : ((convertFile tf mime o f e).fst).error = none) :
    ((convertFile tf mime o f e).fst).mimeType = mime
    ∧ ((convertFile tf mime o f e).fst).newName = outputFileName e.uniqueId tf := by
  rcases e with ⟨id, w, p, s⟩
  cases w with
  | ioError m => simp [convertFile, failureResult] at h
  | ok =>
    cases p with
    | spawnError m => simp [convertFile, failureResult] at h
    | closed code stderr =>
      by_cases hc : code = 0
      · cases s with
        | statOk n => simp [convertFile, hc]
        | statError m => simp [convertFile, failureResult, hc] at h
      · simp [convertFile, failureResult, hc] at h

/-- C10: target-format matching is case-insensitive — any format string
whose lowercase form is in the allow-list is accepted (the batch answers
200), the MIME type reported on success is the one looked up from the
lowercased form, and every generated output name and output path ends in a
dot followed by the lowercased format string (the path being the last
encoder argument of every spawn). -/
theorem format_case_insensitive
    (files : List UploadedFile) (tf mime origin : String) (envf : Nat → FileEnv)
    (hne : files ≠ [])
    (hfmt : allowedVideoFormatsGet (toLowerCase tf) = some mime) :
    (convertVideoBatch files (some tf) origin envf).fst
      = BatchResponse.ok true batchMessage
          ((runBatch tf mime origin envf 0 files).map Prod.fst)
    ∧ (∀ r ∈ (runBatch tf mime origin envf 0 files).map Prod.fst, r.error = none →
        r.mimeType = mime ∧ ∃ stem, r.newName = stem ++ "." ++ toLowerCase tf)
    ∧ ∀ t ∈ (convertVideoBatch files (some tf) origin envf).snd, ∀ args,
        FsAction.fsSpawn args ∈ t →
          ∃ stem, args.getLast? = some (stem ++ "." ++ toLowerCase tf) := by
  have hok := convertVideoBatch_ok files tf mime origin envf hne hfmt
  refine ⟨by rw [hok], ?_, ?_⟩
  · intro r hr herr
    obtain ⟨x, hx, hxr⟩ := List.mem_map.mp hr
    obtain ⟨f, e, _, hxe⟩ := runBatch_mem tf mime origin envf files 0 x hx
    subst hxe
    subst hxr
    obtain ⟨hm, hn⟩ := convertFile_success_fields tf mime origin f e herr
    exact ⟨hm, e.uniqueId ++ "_output", by rw [hn, outputFileName_decomp]⟩
  · intro t ht args hargs
    rw [hok] at ht
    obtain ⟨x, hx, hxt⟩ := List.mem_map.mp ht
    obtain ⟨f, e, _, hxe⟩ := runBatch_mem tf mime origin envf files 0 x hx
    subst hxe
    subst hxt
    have hargs2 := convertFile_spawn_args tf mime origin f e args hargs
    subst hargs2
    refine ⟨"/tmp/" ++ e.uniqueId ++ "_output", ?_⟩
    simp [List.getLast?, outputFilePath_decomp]

/-- Witness for `format_case_insensitive`: the uppercase format string
`"MP4"` is accepted and lowercased in the output name. -/
theorem format_case_insensitive_witness :
    (convertVideoBatch [sampleFile] (some "MP4") "http://h" sampleEnvf).fst
      = BatchResponse.ok true batchMessage
          ((runBatch "MP4" "video/mp4" "http://h" sampleEnvf 0 [sampleFile]).map Prod.fst) :=
  (format_case_insensitive [sampleFile] "MP4" "video/mp4" "http://h" sampleEnvf
    (by decide) (by decide)).1

/-- C8: a download request whose joined path `/tmp/<filename>` holds no
accessible file is answered with the not-found response and its
human-readable plain-text body; and the delivery handler never lets an
exception escape — every request, on every disk, gets a response. -/
theorem download_missing_not_found (d : Disk) (filename : String)
    (h : d (pathJoinTmp filename) = none) :
    (downloadVideo d filename).fst
      = DownloadResponse.notFound "File not found or not accessible."
    ∧ ∀ (d2 : Disk) (f2 m : String),
        (downloadVideo d2 f2).fst ≠ DownloadResponse.uncaught m := by
  constructor
  · simp [downloadVideo, h]
  · intro d2 f2 m hcon
    cases hd : d2 (pathJoinTmp f2) with
    | none => simp [downloadVideo, hd] at hcon
    | some b => simp [downloadVideo, hd] at hcon

/-- Witness for `download_missing_not_found` on an empty disk. -/
theorem download_missing_not_found_witness :
    (downloadVideo (fun _ => none) "abc_output.mp4").fst
      = DownloadResponse.notFound "File not found or not accessible." :=
  (download_missing_not_found (fun _ => none) "abc_output.mp4" rfl).1

/-- C9: the delivery handler performs no unlink and no write — its trace
leaves the disk unchanged — and two successive fetches of an existing
artifact both succeed with byte-identical content (and identical headers). -/
theorem download_idempotent_read (d : Disk) (filename : String) (bytes : Bytes)
    (h : d (pathJoinTmp filename) = some bytes) :
    (∀ p, FsAction.fsUnlink p ∉ (downloadVideo d filename).snd)
    ∧ (∀ p b, FsAction.fsWrite p b ∉ (downloadVideo d filename).snd)
    ∧ applyFs d (downloadVideo d filename).snd = d
    ∧ ∃ mime disp,
        (downloadVideo d filename).fst = DownloadResponse.served mime disp bytes
        ∧ (downloadVideo (applyFs d (downloadVideo d filename).snd) filename).fst
            = DownloadResponse.served mime disp bytes := by
  have htr : (downloadVideo d filename).snd = [FsAction.fsAccess (pathJoinTmp filename)] := by
    simp [downloadVideo, h]
  have hap : applyFs d (downloadVideo d filename).snd = d := by
    rw [htr]
    rfl
  refine ⟨?_, ?_, hap, ?_⟩
  · intro p hp
    rw [htr] at hp
    simp at hp
  · intro p b hp
    rw [htr] at hp
    simp at hp
  · refine ⟨if toLowerCase (extname filename) = ".mp4" then "video/mp4"
        else if toLowerCase (extname filename) = ".webm" then "video/webm"
        else "application/octet-stream",
      "attachment; filename=\"" ++ filename ++ "\"", ?_, ?_⟩
    · simp [downloadVideo, h]
    · rw [hap]
      simp [downloadVideo, h]

/-- Witness for `download_idempotent_read`: fetching the sample artifact
twice serves the same bytes both times. -/
theorem download_idempotent_read_witness :
    ∃ mime disp,
      (downloadVideo sampleDisk "id0_output.mp4").fst
        = DownloadResponse.served mime disp [9, 9, 9]
      ∧ (downloadVideo (applyFs sampleDisk (downloadVideo sampleDisk "id0_output.mp4").snd)
            "id0_output.mp4").fst
          = DownloadResponse.served mime disp [9, 9, 9] :=
  (download_idempotent_read sampleDisk "id0_output.mp4" [9, 9, 9] (by decide)).2.2.2

